import Mathlib

/-!
Verification development for the `bevy_parquet` serialization engine.

The Rust source is shallowly embedded here:
* entities and component ids are `Nat`;
* component / attribute names are `String` (lists of characters; the source
  strings are ASCII, so Rust's byte-based `len`/`split_at` coincide with the
  character-based model);
* the external collaborators (bevy's reflection registry, the file system,
  the arrow writer) are modelled by explicit lookup functions and by a list
  of file operations;
* Rust panics (`expect`, `unimplemented!`) and `Result` errors are both
  modelled with `Except`.
-/

set_option maxHeartbeats 1000000

namespace BevyParquet

/-! ## String helpers

Executable models of the Rust string operations used by the source:
`str::contains` (substring test), `str::split(sep).last()`, and
`str::strip_suffix('>')`.  They are written with structural recursion (a
`Nat` fuel where needed) so that the kernel can evaluate them on concrete
inputs. -/

def listPrefixOf : List Char → List Char → Bool
  | [], _ => true
  | _ :: _, [] => false
  | a :: as, b :: bs => a == b && listPrefixOf as bs

/-- Model of Rust `s.contains(pat)`: `pat` occurs as a contiguous substring. -/
def hasSubstr : List Char → List Char → Bool
  | [], pat => listPrefixOf pat []
  | c :: rest, pat => listPrefixOf pat (c :: rest) || hasSubstr rest pat

def strContains (s pat : String) : Bool :=
  hasSubstr s.data pat.data

/-- Suffix of `s` that follows the first occurrence of the (nonempty)
separator `sep`; `[]` when there is no occurrence. -/
def afterFirstOcc (sep : List Char) : List Char → List Char
  | [] => []
  | c :: rest =>
    if listPrefixOf sep (c :: rest) then List.drop (sep.length - 1) rest
    else afterFirstOcc sep rest

/-- Fueled iteration of `afterFirstOcc`: each step jumps past one
occurrence, so the final result is the piece after the last occurrence. -/
def splitLastFuel (sep : List Char) : Nat → List Char → List Char
  | 0, s => s
  | fuel + 1, s =>
    if !sep.isEmpty && hasSubstr s sep then splitLastFuel sep fuel (afterFirstOcc sep s)
    else s

/-- Model of Rust `s.split(sep).last().unwrap()`: the piece after the last
occurrence of `sep`, or all of `s` when `sep` does not occur. -/
def splitLastPiece (sep : List Char) (s : List Char) : List Char :=
  splitLastFuel sep (s.length + 1) s

/-- Model of Rust `s.strip_suffix('>')`. -/
def stripGtSuffix (s : List Char) : Option (List Char) :=
  match s.reverse with
  | [] => none
  | c :: rest => if c = '>' then some rest.reverse else none

def doubleColon : List Char := String.data "::"

/-- Model of `name.split("::").last().unwrap()` from the source. -/
def shortNameOf (s : String) : String :=
  String.mk (splitLastPiece doubleColon s.data)

/-- The marker attribute name pattern used throughout the source. -/
def markerName : String := "PhantomPersistTag"

/-! ## Arrow data model (`arrow::datatypes`)

Only the constructors the source actually produces.  A field is
`(name, type, nullable)`. -/

inductive ArrowType where
  | utf8
  | float32
  | float64
  | int32
  | int64
  | uint32
  | uint64
  | boolean
  | structType (fields : List (String × ArrowType × Bool))
  | listType (item : String × ArrowType × Bool)
  | fixedSizeListType (item : String × ArrowType × Bool) (capacity : Nat)

/-- A schema field `(short name, type, nullable)`. -/
abbrev SchemaField := String × ArrowType × Bool

/-! ## Reflection metadata model (`bevy::reflect`)

`TypeInfoM` mirrors the `TypeInfo` variants the source matches on; each
registration also carries its type path, its short path, and whether
`ReflectComponent` data is registered for it. -/

structure StructFieldM where
  name : String
  shortPath : String

inductive TypeInfoM where
  | tupleStructInfo
  | structInfo (fields : List StructFieldM)
  | valueInfo
  | enumInfo
  | listInfo
  | arrayInfo (itemTypeId : Nat) (capacity : Nat)
  | otherInfo

structure TypeRegistration where
  typePath : String
  shortPath : String
  typeInfo : TypeInfoM
  hasReflectComponent : Bool

structure ComponentInfoM where
  typeId : Option Nat

/-! ## `get_phantom_type` (serialization.rs, lines 19-45) -/

def phantomSep : List Char := String.data "PhantomData<"

/-- `path.split("PhantomData<").last().and_then(|s| s.strip_suffix('>'))`. -/
def phantomInner (shortPath : String) : Option String :=
  match stripGtSuffix (splitLastPiece phantomSep shortPath.data) with
  | some inner => some (String.mk inner)
  | none => none

/-- The `match inner_type` table inside `get_phantom_type`. -/
def mapPhantomInner (s : String) : Option ArrowType :=
  if s = "f32" then some ArrowType.float32
  else if s = "f64" then some ArrowType.float64
  else if s = "i32" then some ArrowType.int32
  else if s = "i64" then some ArrowType.int64
  else none

/-- The field loop of `get_phantom_type`: the first `target_type` field whose
short path parses as `PhantomData<...>` decides the result (possibly `none`
for an unmapped inner type); a `target_type` field that does not parse lets
the loop continue. -/
def get_phantom_type : List StructFieldM → Option ArrowType
  | [] => none
  | f :: rest =>
    if f.name = "target_type" then
      match phantomInner f.shortPath with
      | some inner => mapPhantomInner inner
      | none => get_phantom_type rest
    else get_phantom_type rest

/-! ## `create_arrow_schema` (serialization.rs, lines 124-259)

The source panics via `expect`/`unimplemented!`; panics are modelled as
`Except.error` with an explicit reason. -/

inductive SchemaPanic where
  | componentNotRegistered
  | missingTypeId
  | typeNotInRegistry
  | unimplementedTupleStruct
  | arrayItemNotRegistered

/-- `map_short_list_type_to_arrow` (serialization.rs, lines 271-281). -/
def map_short_list_type_to_arrow (typePath : String) : ArrowType :=
  if typePath = "f32" then ArrowType.float32
  else if typePath = "bevy::math::Vec3" then
    ArrowType.structType
      [("x", ArrowType.float32, false),
       ("y", ArrowType.float32, false),
       ("z", ArrowType.float32, false)]
  else ArrowType.utf8

/-- The `TypeInfo::Value` arm of `create_arrow_schema`. -/
def valueTypeToArrow (typePath : String) : ArrowType :=
  if typePath = "f32" then ArrowType.float32
  else if typePath = "f64" then ArrowType.float64
  else if typePath = "i32" then ArrowType.int32
  else if typePath = "i64" then ArrowType.int64
  else if typePath = "u32" then ArrowType.uint32
  else if typePath = "u64" then ArrowType.uint64
  else if typePath = "bool" then ArrowType.boolean
  else if typePath = "entity" then ArrowType.uint64
  else ArrowType.utf8

/-- The per-registration `match type_reg.type_info()` of `create_arrow_schema`
(serialization.rs, lines 163-248). -/
def mapTypeToArrow (reg : TypeRegistration) (regGet : Nat → Option TypeRegistration) :
    Except SchemaPanic ArrowType :=
  if reg.hasReflectComponent then
    match reg.typeInfo with
    | TypeInfoM.tupleStructInfo =>
      if strContains reg.typePath markerName then Except.ok ArrowType.utf8
      else Except.error SchemaPanic.unimplementedTupleStruct
    | TypeInfoM.structInfo fields =>
      match get_phantom_type fields with
      | some target => Except.ok (ArrowType.structType [("output", target, false)])
      | none =>
        if fields.any (fun f => f.name = "output") then Except.ok ArrowType.utf8
        else
          Except.ok (ArrowType.structType (fields.map (fun f =>
            (f.name,
             if f.name = "output" then (get_phantom_type fields).getD ArrowType.utf8
             else ArrowType.utf8,
             true))))
    | TypeInfoM.valueInfo => Except.ok (valueTypeToArrow reg.typePath)
    | TypeInfoM.enumInfo => Except.ok ArrowType.utf8
    | TypeInfoM.listInfo => Except.ok (ArrowType.listType ("item", ArrowType.utf8, true))
    | TypeInfoM.arrayInfo itemId capacity =>
      match regGet itemId with
      | none => Except.error SchemaPanic.arrayItemNotRegistered
      | some itemReg =>
        Except.ok (ArrowType.fixedSizeListType
          ("item", map_short_list_type_to_arrow itemReg.shortPath, true) capacity)
    | TypeInfoM.otherInfo => Except.ok ArrowType.utf8
  else Except.ok ArrowType.utf8

/-- A cluster as the source passes it around: a list of
`(fully-qualified name, component id)` pairs. -/
abbrev Cluster := List (String × Nat)

/-- The read-only world/registry snapshot the engine consumes. -/
structure WorldModel where
  entities : List Nat
  sigs : List (Nat × Finset Nat)
  nameOf : Nat → String
  has : Nat → Nat → Bool
  reflectVal : Nat → Nat → Option String
  getInfo : Nat → Option ComponentInfoM
  regGet : Nat → Option TypeRegistration

/-- The component loop of `create_arrow_schema`: resolve metadata (panicking
on each failed lookup), skip marker registrations, map the rest. -/
def createArrowSchemaAux (w : WorldModel) : Cluster → Except SchemaPanic (List SchemaField)
  | [] => Except.ok []
  | (name, cid) :: rest =>
    match w.getInfo cid with
    | none => Except.error SchemaPanic.componentNotRegistered
    | some info =>
      match info.typeId with
      | none => Except.error SchemaPanic.missingTypeId
      | some tid =>
        match w.regGet tid with
        | none => Except.error SchemaPanic.typeNotInRegistry
        | some reg =>
          if strContains reg.typePath markerName then createArrowSchemaAux w rest
          else
            match mapTypeToArrow reg w.regGet with
            | Except.error e => Except.error e
            | Except.ok dt =>
              match createArrowSchemaAux w rest with
              | Except.error e => Except.error e
              | Except.ok fields => Except.ok ((shortNameOf name, dt, false) :: fields)

def create_arrow_schema (components : Cluster) (w : WorldModel) :
    Except SchemaPanic (List SchemaField) :=
  createArrowSchemaAux w components

example : strContains "foo::PhantomPersistTag" markerName = true := by decide
example : strContains "foo::Position" markerName = false := by decide
example : shortNameOf "foo::bar::Position" = "Position" := by decide
example : phantomInner "PhantomData<f32>" = some "f32" := by decide
example : get_phantom_type [⟨"target_type", "PhantomData<f32>"⟩] = some ArrowType.float32 := by
  rfl

/-! ## `detect_component_clusters` (serialization.rs, lines 48-121)

Signatures are finite sets of component ids (a `(name, id)` pair in the
source is determined by its id, names being looked up from component
info).  The `f32` similarity test `|inter| / |union| > 0.8` is modelled
exactly over `ℚ`; for the set cardinalities that occur the `f32`
computation agrees with the exact rational one. -/

def jaccardSim (a b : Finset Nat) : ℚ :=
  (((a ∩ b).card : ℚ)) / (((a ∪ b).card : ℚ))

def jaccardGT (a b : Finset Nat) : Bool :=
  decide ((0.8 : ℚ) < jaccardSim a b)

/-- State of the inner scan: the seed being narrowed, the processed-entity
set, and the entities assigned to the cluster so far. -/
structure ScanState where
  cluster : Finset Nat
  processed : Finset Nat
  members : List Nat

/-- One comparison of the inner scan (serialization.rs, lines 95-109):
skip processed entities; on similarity strictly above `0.8`, narrow the
seed to the intersection and mark the entity assigned. -/
def scanStep (st : ScanState) (p : Nat × Finset Nat) : ScanState :=
  if p.1 ∈ st.processed then st
  else if jaccardGT st.cluster p.2 then
    ⟨st.cluster ∩ p.2, insert p.1 st.processed, st.members ++ [p.1]⟩
  else st

/-- The inner scan over every signature in the map. -/
def scanOthers (sigs : List (Nat × Finset Nat)) (st : ScanState) : ScanState :=
  sigs.foldl scanStep st

/-- The outer greedy pass (serialization.rs, lines 86-114), additionally
recording each cluster's member entities (the source's
`processed_entities` bookkeeping, kept per cluster). -/
def detectAux (all : List (Nat × Finset Nat)) :
    List (Nat × Finset Nat) → Finset Nat → List (Finset Nat × List Nat)
  | [], _ => []
  | (e, s) :: rest, processed =>
    if e ∈ processed then detectAux all rest processed
    else
      let st := scanOthers all ⟨s, insert e processed, [e]⟩
      if st.cluster = ∅ then detectAux all rest st.processed
      else (st.cluster, st.members) :: detectAux all rest st.processed

/-- Clusters with their assigned entities. -/
def detectClustersWithMembers (sigs : List (Nat × Finset Nat)) :
    List (Finset Nat × List Nat) :=
  detectAux sigs sigs ∅

/-- The source's return value: just the attribute sets. -/
def detect_component_clusters (sigs : List (Nat × Finset Nat)) : List (Finset Nat) :=
  (detectClustersWithMembers sigs).map Prod.fst

/-- Conversion of a detected cluster (a set of ids) to the
`Vec<(String, ComponentId)>` the rest of the pipeline consumes. -/
def clusterToList (w : WorldModel) (fs : Finset Nat) : Cluster :=
  (fs.sort (· ≤ ·)).map (fun cid => (w.nameOf cid, cid))

def worldClusters (w : WorldModel) : List Cluster :=
  (detect_component_clusters w.sigs).map (clusterToList w)

/-! ## `component_to_arrow_array` / `process_entity` (lib.rs, lines 185-368)

The reflection chain (component info, type id, registry entry,
`ReflectComponent`, `reflect`) and the debug formatting of the reflected
value are collapsed into the oracle `WorldModel.reflectVal`; a `none`
stands for any failure in that chain (the entity is skipped with a
warning).  `StringArray::from(Vec<String>)` produces an all-valid array,
modelled as a list of `some` values (a `none` entry would be a null). -/

/-- `process_entity`: markers are never materialized; a failed reflection
leaves `values` unchanged; a successful one appends the formatted value. -/
def processEntityM (w : WorldModel) (p : String × Nat) (values : List String) (e : Nat) :
    List String :=
  if strContains p.1 markerName then values
  else
    match w.reflectVal e p.2 with
    | some v => values ++ [v]
    | none => values

inductive SerErr where
  | schemaPanic (e : SchemaPanic)
  | batchError

/-- `StringArray::from(values)`: every slot is valid (non-null). -/
def stringArrayFromVec (values : List String) : List (Option String) :=
  values.map some

/-- The materialized column for one attribute over a list of entities. -/
def columnFor (w : WorldModel) (entities : List Nat) (p : String × Nat) :
    List (Option String) :=
  stringArrayFromVec (entities.foldl (processEntityM w p) [])

/-- `component_to_arrow_array`: processes each entity in order and always
returns `Ok`. -/
def component_to_arrow_array (w : WorldModel) (entities : List Nat) (p : String × Nat) :
    Except SerErr (List (Option String)) :=
  Except.ok (columnFor w entities p)

/-! ## `serialize_world` (lib.rs, lines 47-182)

File-system effects are modelled as a list of `FileOp`s:
`File::create` truncates the path, a successful
`writer.write`/`writer.close` stores the batch at the path.  Arrow's
`RecordBatch::try_from_iter` fails when the columns do not all have the
same length (or when there is no column at all); `File::create`,
`ArrowWriter::try_new` and `writer.write` IO successes are assumed (their
failure modes live outside the embedded logic).  The `ParquetState`
resource update and logging are omitted: no claim depends on them. -/

structure ParquetConfig where
  output_path : String
  file_name : Option String
  component_clusters : Option (List Cluster)

abbrev Batch := List (String × List (Option String))

inductive FileOp where
  | createFile (path : String) (cluster : Cluster)
  | writeBatch (path : String) (cluster : Cluster) (batch : Batch)

def opPath : FileOp → String
  | FileOp.createFile path _ => path
  | FileOp.writeBatch path _ _ => path

def opCluster : FileOp → Cluster
  | FileOp.createFile _ c => c
  | FileOp.writeBatch _ c _ => c

/-- Content a file op leaves at its path: `none` for a bare truncation. -/
def opContent : FileOp → Option Batch
  | FileOp.createFile _ _ => none
  | FileOp.writeBatch _ _ b => some b

/-- The cluster filter of lib.rs, lines 65-77: keep a cluster only when
some attribute name contains the marker substring. -/
def clusterHasMarker (c : Cluster) : Bool :=
  c.any (fun p => strContains p.1 markerName)

def filterClusters (cs : List Cluster) : List Cluster :=
  cs.filter clusterHasMarker

/-- Auto-derived file name (lib.rs, lines 109-119): fold every short name
followed by `"_"`, then hard-truncate to the first 20 characters. -/
def deriveName (c : Cluster) : String :=
  let folded := c.foldl (fun acc p => acc ++ shortNameOf p.1 ++ "_") ""
  if folded.length > 20 then String.mk (folded.data.take 20) else folded

def chosenFileName (cfg : ParquetConfig) (c : Cluster) : String :=
  cfg.file_name.getD (deriveName c)

def filePathFor (cfg : ParquetConfig) (c : Cluster) : String :=
  cfg.output_path ++ "_" ++ chosenFileName cfg c ++ ".parquet"

/-- Entity collection of lib.rs, lines 131-140: an entity qualifies when it
possesses every component of the cluster (markers included). -/
def qualifyingEntities (w : WorldModel) (c : Cluster) : List Nat :=
  w.entities.filter (fun e => c.all (fun p => w.has e p.2))

/-- `RecordBatch::try_from_iter`: fails on zero columns or on columns of
unequal length. -/
def recordBatchOf (arrays : Batch) : Option Batch :=
  match arrays with
  | [] => none
  | a :: rest =>
    if rest.all (fun b => b.2.length = a.2.length) then some (a :: rest) else none

/-- Processing of one cluster inside the loop of `serialize_world`:
schema (panics propagate), file creation, per-component arrays, marker
columns dropped, record batch, write. -/
def processOne (cfg : ParquetConfig) (w : WorldModel) (c : Cluster) :
    List FileOp × Option SerErr :=
  match create_arrow_schema c w with
  | Except.error e => ([], some (SerErr.schemaPanic e))
  | Except.ok _schema =>
    let path := filePathFor cfg c
    let qual := qualifyingEntities w c
    let arrays : Batch := c.map (fun p => (p.1, columnFor w qual p))
    let kept := arrays.filter (fun a => !(strContains a.1 markerName))
    match recordBatchOf kept with
    | none => ([FileOp.createFile path c], some SerErr.batchError)
    | some batch => ([FileOp.createFile path c, FileOp.writeBatch path c batch], none)

/-- The per-cluster loop: the first error aborts the remaining clusters;
file operations already performed stay. -/
def processClusters (cfg : ParquetConfig) (w : WorldModel) :
    List Cluster → List FileOp × Option SerErr
  | [] => ([], none)
  | c :: rest =>
    match processOne cfg w c with
    | (ops, none) =>
      let tail := processClusters cfg w rest
      (ops ++ tail.1, tail.2)
    | (ops, some e) => (ops, some e)

/-- Clusters that survive the marker filter (manual clusters from the
config bypass detection but not the filter). -/
def survivingClusters (cfg : ParquetConfig) (w : WorldModel) : List Cluster :=
  filterClusters (cfg.component_clusters.getD (worldClusters w))

/-- All file operations one invocation of `serialize_world` performs. -/
def serializeWorldOps (cfg : ParquetConfig) (w : WorldModel) : List FileOp :=
  (processClusters cfg w (survivingClusters cfg w)).1

/-- Replay of the file operations against an initially empty directory:
create/truncate or write at a path replaces whatever was there. -/
def applyOp (disk : List (String × Option Batch)) (op : FileOp) :
    List (String × Option Batch) :=
  if disk.any (fun d => d.1 = opPath op) then
    disk.map (fun d => if d.1 = opPath op then (d.1, opContent op) else d)
  else disk ++ [(opPath op, opContent op)]

def replayDisk (ops : List FileOp) : List (String × Option Batch) :=
  ops.foldl applyOp []

/-- The non-marker attributes of a cluster (the spec's qualifying-set
criterion and the column filter both use this predicate). -/
def nonMarkerAttrs (c : Cluster) : Cluster :=
  c.filter (fun p => !(strContains p.1 markerName))

/-! ## Helper lemmas -/

lemma scanStep_eq_or_merge (st : ScanState) (p : Nat × Finset Nat) :
    scanStep st p = st ∨
      (p.1 ∉ st.processed ∧
        scanStep st p = ⟨st.cluster ∩ p.2, insert p.1 st.processed, st.members ++ [p.1]⟩) := by
  unfold scanStep
  by_cases h1 : p.1 ∈ st.processed
  · left
    simp [h1]
  · by_cases h2 : jaccardGT st.cluster p.2
    · right
      exact ⟨h1, by simp [h1, h2]⟩
    · left
      simp [h1, h2]

lemma scanOthers_cons (p : Nat × Finset Nat) (sigs : List (Nat × Finset Nat)) (st : ScanState) :
    scanOthers (p :: sigs) st = scanOthers sigs (scanStep st p) := rfl

/-- The inner scan only grows the processed set, and the entities it adds to
`members` are fresh: pairwise distinct, previously unprocessed and all
processed afterwards. -/
lemma scanOthers_spec (sigs : List (Nat × Finset Nat)) :
    ∀ st : ScanState,
      st.processed ⊆ (scanOthers sigs st).processed ∧
      ∃ ns : List Nat,
        (scanOthers sigs st).members = st.members ++ ns ∧
        ns.Nodup ∧
        (∀ e ∈ ns, e ∉ st.processed) ∧
        (∀ e ∈ ns, e ∈ (scanOthers sigs st).processed) := by
  induction sigs with
  | nil =>
    intro st
    exact ⟨Finset.Subset.refl _, [], by simp [scanOthers], List.nodup_nil, by simp, by simp⟩
  | cons p rest ih =>
    intro st
    rw [scanOthers_cons]
    rcases scanStep_eq_or_merge st p with heq | ⟨hnp, heq⟩
    · rw [heq]
      exact ih st
    · rw [heq]
      obtain ⟨hsub, ns, hm, hnd, hnot, hin⟩ :=
        ih ⟨st.cluster ∩ p.2, insert p.1 st.processed, st.members ++ [p.1]⟩
      refine ⟨?_, p.1 :: ns, ?_, ?_, ?_, ?_⟩
      · exact fun x hx => hsub (Finset.mem_insert_of_mem hx)
      · simpa [List.append_assoc] using hm
      · refine List.nodup_cons.mpr ⟨?_, hnd⟩
        intro hmem
        exact hnot p.1 hmem (Finset.mem_insert_self _ _)
      · intro e he
        rcases List.mem_cons.mp he with rfl | he'
        · exact hnp
        · exact fun hc => hnot e he' (Finset.mem_insert_of_mem hc)
      · intro e he
        rcases List.mem_cons.mp he with rfl | he'
        · exact hsub (Finset.mem_insert_self _ _)
        · exact hin e he'

/-- Invariant of the greedy outer pass: every emitted cluster's member list
is duplicate-free and avoids the already-processed set, and member lists of
distinct clusters are disjoint. -/
lemma detectAux_spec (all : List (Nat × Finset Nat)) :
    ∀ (rest : List (Nat × Finset Nat)) (processed : Finset Nat),
      (∀ c ∈ detectAux all rest processed, c.2.Nodup ∧ ∀ e ∈ c.2, e ∉ processed) ∧
      (detectAux all rest processed).Pairwise (fun c1 c2 => ∀ e ∈ c1.2, e ∉ c2.2) := by
  intro rest
  induction rest with
  | nil =>
    intro processed
    simp [detectAux]
  | cons hd tl ih =>
    intro processed
    obtain ⟨e, s⟩ := hd
    by_cases he : e ∈ processed
    · simpa [detectAux, he] using ih processed
    · obtain ⟨hsub, ns, hm, hnd, hnot, hin⟩ :=
        scanOthers_spec all ⟨s, insert e processed, [e]⟩
      have hmem : (scanOthers all ⟨s, insert e processed, [e]⟩).members = e :: ns := by
        simpa using hm
      have hprocsub : processed ⊆ (scanOthers all ⟨s, insert e processed, [e]⟩).processed :=
        fun x hx => hsub (Finset.mem_insert_of_mem hx)
      have hmembers_proc :
          ∀ x ∈ (scanOthers all ⟨s, insert e processed, [e]⟩).members,
            x ∈ (scanOthers all ⟨s, insert e processed, [e]⟩).processed := by
        intro x hx
        rw [hmem] at hx
        rcases List.mem_cons.mp hx with rfl | hx'
        · exact hsub (Finset.mem_insert_self _ _)
        · exact hin x hx'
      have hmembers_nodup : (scanOthers all ⟨s, insert e processed, [e]⟩).members.Nodup := by
        rw [hmem]
        refine List.nodup_cons.mpr ⟨?_, hnd⟩
        intro hc
        exact hnot e hc (Finset.mem_insert_self _ _)
      have hmembers_not : ∀ x ∈ (scanOthers all ⟨s, insert e processed, [e]⟩).members,
          x ∉ processed := by
        intro x hx
        rw [hmem] at hx
        rcases List.mem_cons.mp hx with rfl | hx'
        · exact he
        · exact fun hc => hnot x hx' (Finset.mem_insert_of_mem hc)
      obtain ⟨ihp, ihpw⟩ := ih (scanOthers all ⟨s, insert e processed, [e]⟩).processed
      by_cases hemp : (scanOthers all ⟨s, insert e processed, [e]⟩).cluster = ∅
      · have hres : detectAux all ((e, s) :: tl) processed =
            detectAux all tl (scanOthers all ⟨s, insert e processed, [e]⟩).processed := by
          simp [detectAux, he, hemp]
        rw [hres]
        refine ⟨?_, ihpw⟩
        intro c hc
        exact ⟨(ihp c hc).1, fun x hx hxp => (ihp c hc).2 x hx (hprocsub hxp)⟩
      · have hres : detectAux all ((e, s) :: tl) processed =
            ((scanOthers all ⟨s, insert e processed, [e]⟩).cluster,
             (scanOthers all ⟨s, insert e processed, [e]⟩).members) ::
              detectAux all tl (scanOthers all ⟨s, insert e processed, [e]⟩).processed := by
          simp [detectAux, he, hemp]
        rw [hres]
        constructor
        · intro c hc
          rcases List.mem_cons.mp hc with rfl | hc'
          · exact ⟨hmembers_nodup, hmembers_not⟩
          · exact ⟨(ihp c hc').1, fun x hx hxp => (ihp c hc').2 x hx (hprocsub hxp)⟩
        · refine List.pairwise_cons.mpr ⟨?_, ihpw⟩
          intro c2 hc2 x hx hxc2
          exact (ihp c2 hc2).2 x hxc2 (hmembers_proc x hx)

/-- For a non-marker attribute, folding `process_entity` over a list of
entities appends exactly the successfully reflected values, in entity
order. -/
lemma foldl_processEntityM (w : WorldModel) (p : String × Nat)
    (hm : strContains p.1 markerName = false) :
    ∀ (es : List Nat) (acc : List String),
      es.foldl (processEntityM w p) acc =
        acc ++ es.filterMap (fun e => w.reflectVal e p.2) := by
  intro es
  induction es with
  | nil =>
    intro acc
    simp
  | cons e rest ih =>
    intro acc
    have hstep : processEntityM w p acc e =
        acc ++ (w.reflectVal e p.2).toList := by
      unfold processEntityM
      rw [hm]
      cases w.reflectVal e p.2 <;> simp
    cases hv : w.reflectVal e p.2 with
    | none =>
      rw [List.foldl_cons, hstep, hv]
      simp only [Option.toList, List.append_nil]
      rw [ih acc, List.filterMap_cons, hv]
    | some v =>
      rw [List.foldl_cons, hstep, hv]
      show List.foldl (processEntityM w p) (acc ++ [v]) rest = _
      rw [ih (acc ++ [v]), List.filterMap_cons, hv, List.append_assoc]
      rfl

lemma length_filterMap_isSome (f : Nat → Option String) (es : List Nat) :
    (es.filterMap f).length = (es.filter (fun e => (f e).isSome)).length := by
  induction es with
  | nil => rfl
  | cons e rest ih =>
    cases hv : f e <;> simp [List.filterMap_cons, List.filter_cons, hv, ih]

lemma length_filterMap_all_some (f : Nat → Option String) (es : List Nat)
    (h : ∀ e ∈ es, (f e).isSome) :
    (es.filterMap f).length = es.length := by
  induction es with
  | nil => rfl
  | cons e rest ih =>
    have he : (f e).isSome := h e (List.mem_cons_self e rest)
    cases hv : f e with
    | none => rw [hv] at he; cases he
    | some v =>
      simp only [List.filterMap_cons, hv, List.length_cons]
      rw [ih (fun x hx => h x (List.mem_cons_of_mem e hx))]

/-! ## C8 — clusters are entity-disjoint -/

/-- C8: the clusters produced by `detect_component_clusters` are
entity-disjoint: each cluster's member list is duplicate-free, member lists
of distinct clusters are pairwise disjoint (so an entity is assigned to at
most one cluster in one invocation), and the source's return value is the
projection of these clusters to their attribute sets. -/
theorem clusters_entity_disjoint (sigs : List (Nat × Finset Nat)) :
    (∀ c ∈ detectClustersWithMembers sigs, c.2.Nodup) ∧
    (detectClustersWithMembers sigs).Pairwise (fun c1 c2 => ∀ e ∈ c1.2, e ∉ c2.2) ∧
    detect_component_clusters sigs = (detectClustersWithMembers sigs).map Prod.fst := by
  obtain ⟨h1, h2⟩ := detectAux_spec sigs sigs ∅
  exact ⟨fun c hc => (h1 c hc).1, h2, rfl⟩

/-! ## C4 — the similarity threshold is strict -/

/-- C4: in one comparison of the detection scan, a Jaccard similarity of
exactly `0.8` leaves the state unchanged (no merge), while a similarity
strictly greater than `0.8` merges the compared entity (it is marked
assigned and recorded as a member) and narrows the seed to the
intersection. -/
theorem similarity_threshold_strict (st : ScanState) (o : Nat) (os : Finset Nat)
    (h : o ∉ st.processed) :
    (jaccardSim st.cluster os = 0.8 → scanStep st (o, os) = st) ∧
    ((0.8 : ℚ) < jaccardSim st.cluster os →
      scanStep st (o, os) =
        ⟨st.cluster ∩ os, insert o st.processed, st.members ++ [o]⟩) := by
  constructor
  · intro heq
    have hgt : jaccardGT st.cluster os = false := by
      simp [jaccardGT, heq]
    simp [scanStep, h, hgt]
  · intro hlt
    have hgt : jaccardGT st.cluster os = true := by
      simp [jaccardGT, hlt]
    simp [scanStep, h, hgt]

/-- Witness for C4 at a concrete state: the entity `3` is unprocessed, and
both threshold implications hold for the seed `{0}` against the signature
`{0}`. -/
theorem similarity_threshold_strict_witness :
    (3 : Nat) ∉ (∅ : Finset Nat) ∧
    ((jaccardSim {0} {0} = 0.8 → scanStep ⟨{0}, ∅, []⟩ (3, {0}) = ⟨{0}, ∅, []⟩) ∧
     ((0.8 : ℚ) < jaccardSim {0} {0} →
       scanStep ⟨{0}, ∅, []⟩ (3, {0}) =
         ⟨{0} ∩ {0}, insert 3 ∅, [] ++ [3]⟩)) :=
  ⟨by decide, similarity_threshold_strict ⟨{0}, ∅, []⟩ 3 {0} (by decide)⟩

/-! ## C3 — column length vs. qualifying set -/

/-- World for the C3 counterexample: entity `0` carries only component `0`
(`demo::Pos`); entity `1` carries components `0` and `1` (the marker).
Reflection always succeeds. -/
def c3World : WorldModel where
  entities := [0, 1]
  sigs := []
  nameOf := fun _ => ""
  has := fun e c => e == 1 || c == 0
  reflectVal := fun _ _ => some "v"
  getInfo := fun _ => none
  regGet := fun _ => none

def c3Cluster : Cluster := [("demo::Pos", 0), ("demo::PhantomPersistTag", 1)]

/-- C3 counterexample: the qualifying set is computed from possession of
every cluster attribute, marker included (lib.rs, lines 133-140), not from
the non-marker attributes only.  With no reflection failure the `Pos`
column has length `1` (only entity `1` carries the marker), while the
number of entities possessing every non-marker attribute is `2`. -/
theorem column_counts_marker_counterexample :
    (columnFor c3World (qualifyingEntities c3World c3Cluster) ("demo::Pos", 0)).length
        ≠ (c3World.entities.filter
            (fun e => (nonMarkerAttrs c3Cluster).all (fun p => c3World.has e p.2))).length ∧
    (columnFor c3World (qualifyingEntities c3World c3Cluster) ("demo::Pos", 0)).length = 1 ∧
    (c3World.entities.filter
        (fun e => (nonMarkerAttrs c3Cluster).all (fun p => c3World.has e p.2))).length = 2 :=
  ⟨by decide, by decide, by decide⟩

/-- C3 (amended): for a non-marker attribute with no per-entity reflection
failure, the column's length equals the number of entities possessing every
attribute of the cluster, the marker attribute included. -/
theorem column_length_eq_qualifying (w : WorldModel) (c : Cluster) (p : String × Nat)
    (hm : strContains p.1 markerName = false)
    (hok : ∀ e ∈ qualifyingEntities w c, (w.reflectVal e p.2).isSome) :
    (columnFor w (qualifyingEntities w c) p).length = (qualifyingEntities w c).length := by
  unfold columnFor stringArrayFromVec
  rw [List.length_map, foldl_processEntityM w p hm, List.nil_append]
  exact length_filterMap_all_some _ _ hok

/-- Witness for C3 (amended) on the counterexample world: both hypotheses
hold for the `Pos` column and the lengths agree. -/
theorem column_length_eq_qualifying_witness :
    strContains "demo::Pos" markerName = false ∧
    (∀ e ∈ qualifyingEntities c3World c3Cluster, (c3World.reflectVal e 0).isSome) ∧
    (columnFor c3World (qualifyingEntities c3World c3Cluster) ("demo::Pos", 0)).length
      = (qualifyingEntities c3World c3Cluster).length :=
  ⟨by decide, fun _ _ => rfl,
    column_length_eq_qualifying c3World c3Cluster ("demo::Pos", 0) (by decide) (fun _ _ => rfl)⟩

/-! ## C6 — per-entity reflection failure -/

/-- World for the C6 scenario: entities `0` and `1` both possess components
`0` (`demo::A`), `1` (`demo::B`) and `2` (the marker); reflection fails for
entity `0` on component `0` only. -/
def c6World : WorldModel where
  entities := [0, 1]
  sigs := []
  nameOf := fun _ => ""
  has := fun _ _ => true
  reflectVal := fun e cid => if e == 0 && cid == 0 then none else some "v"
  getInfo := fun cid => some ⟨some cid⟩
  regGet := fun tid =>
    if tid == 2 then
      some ⟨"demo::PhantomPersistTag", "PhantomPersistTag", TypeInfoM.structInfo [], true⟩
    else some ⟨"f32", "f32", TypeInfoM.valueInfo, true⟩

def c6Cluster : Cluster := [("demo::A", 0), ("demo::B", 1), ("demo::PhantomPersistTag", 2)]

def c6Config : ParquetConfig where
  output_path := "out"
  file_name := none
  component_clusters := some [c6Cluster]

/-- C6 counterexample: the failed reflection is recovered locally (the `A`
column is `Ok` with the value omitted and no null inserted), but the
omission leaves columns `A` and `B` with different lengths, so record-batch
creation fails: the cluster is aborted after its file was created/truncated
and the remaining cluster of the invocation is never attempted —
contradicting "the failure never aborts the cluster or the invocation". -/
theorem reflection_failure_abort_counterexample :
    component_to_arrow_array c6World (qualifyingEntities c6World c6Cluster) ("demo::A", 0)
      = Except.ok [some "v"] ∧
    (processOne c6Config c6World c6Cluster).2 = some SerErr.batchError ∧
    (processClusters c6Config c6World [c6Cluster, c6Cluster]).1
      = [FileOp.createFile (filePathFor c6Config c6Cluster) c6Cluster] :=
  ⟨rfl, rfl, rfl⟩

/-- C6 (amended): within column materialization the failure policy is as
claimed — `component_to_arrow_array` always returns `Ok`, a failed entity's
value is omitted (never a null), the surviving values keep entity order,
and the column length equals the number of entities whose reflection
succeeded.  (Aborts can still arise downstream when the omission leaves
columns of unequal length, as the counterexample shows.) -/
theorem reflection_failure_local_recovery (w : WorldModel) (es : List Nat) (p : String × Nat)
    (hm : strContains p.1 markerName = false) :
    component_to_arrow_array w es p =
      Except.ok ((es.filterMap (fun e => w.reflectVal e p.2)).map some) ∧
    (none : Option String) ∉ ((es.filterMap (fun e => w.reflectVal e p.2)).map some) ∧
    ((es.filterMap (fun e => w.reflectVal e p.2)).map some).length
      = (es.filter (fun e => (w.reflectVal e p.2).isSome)).length := by
  refine ⟨?_, ?_, ?_⟩
  · unfold component_to_arrow_array columnFor stringArrayFromVec
    rw [foldl_processEntityM w p hm, List.nil_append]
  · simp
  · rw [List.length_map]
    exact length_filterMap_isSome _ _

/-- Witness for C6 (amended) on the C6 world: the failing entity `0` is
omitted from the `A` column, which is `Ok`, null-free, and of length `1`. -/
theorem reflection_failure_local_recovery_witness :
    strContains "demo::A" markerName = false ∧
    (component_to_arrow_array c6World [0, 1] ("demo::A", 0) =
      Except.ok ((([0, 1] : List Nat).filterMap
        (fun e => c6World.reflectVal e 0)).map some) ∧
    (none : Option String) ∉ ((([0, 1] : List Nat).filterMap
        (fun e => c6World.reflectVal e 0)).map some) ∧
    ((([0, 1] : List Nat).filterMap (fun e => c6World.reflectVal e 0)).map some).length
      = (([0, 1] : List Nat).filter (fun e => (c6World.reflectVal e 0).isSome)).length) :=
  ⟨by decide, reflection_failure_local_recovery c6World [0, 1] ("demo::A", 0) (by decide)⟩

/-! ## Pipeline lemmas for C5, C9 and C10 -/

/-- Every file operation `processOne` performs belongs to the processed
cluster and targets that cluster's file path. -/
lemma processOne_ops_spec (cfg : ParquetConfig) (w : WorldModel) (c : Cluster) :
    ∀ op ∈ (processOne cfg w c).1, opCluster op = c ∧ opPath op = filePathFor cfg c := by
  intro op hop
  simp only [processOne] at hop
  split at hop
  · simp at hop
  · split at hop
    · simp only [List.mem_singleton] at hop
      subst hop
      exact ⟨rfl, rfl⟩
    · simp only [List.mem_cons, List.mem_singleton, List.not_mem_nil, or_false] at hop
      rcases hop with rfl | rfl
      · exact ⟨rfl, rfl⟩
      · exact ⟨rfl, rfl⟩

/-- Every file operation of the cluster loop belongs to one of the
processed clusters. -/
lemma processClusters_ops_spec (cfg : ParquetConfig) (w : WorldModel) :
    ∀ cs : List Cluster, ∀ op ∈ (processClusters cfg w cs).1,
      ∃ c ∈ cs, opCluster op = c ∧ opPath op = filePathFor cfg c := by
  intro cs
  induction cs with
  | nil =>
    intro op hop
    simp [processClusters] at hop
  | cons c rest ih =>
    intro op hop
    unfold processClusters at hop
    rcases hp : processOne cfg w c with ⟨ops, err⟩
    rw [hp] at hop
    cases err with
    | none =>
      simp only [List.mem_append] at hop
      rcases hop with h1 | h2
      · have hspec := processOne_ops_spec cfg w c op (by rw [hp]; exact h1)
        exact ⟨c, List.mem_cons_self c rest, hspec⟩
      · obtain ⟨c', hc', hspec⟩ := ih op h2
        exact ⟨c', List.mem_cons_of_mem c hc', hspec⟩
    | some e =>
      have hspec := processOne_ops_spec cfg w c op (by rw [hp]; exact hop)
      exact ⟨c, List.mem_cons_self c rest, hspec⟩

lemma mem_filterClusters {c : Cluster} {cs : List Cluster} (h : c ∈ filterClusters cs) :
    clusterHasMarker c = true :=
  (List.mem_filter.mp h).2

/-- Replaying operations that all target one path leaves at most one file. -/
lemma replay_all_same_path (p : String) :
    ∀ (ops : List FileOp) (disk : List (String × Option Batch)),
      (∀ op ∈ ops, opPath op = p) → (∀ d ∈ disk, d.1 = p) → disk.length ≤ 1 →
      (∀ d ∈ ops.foldl applyOp disk, d.1 = p) ∧ (ops.foldl applyOp disk).length ≤ 1 := by
  intro ops
  induction ops with
  | nil =>
    intro disk _ hd hl
    exact ⟨hd, hl⟩
  | cons op rest ih =>
    intro disk hops hd hl
    have hop : opPath op = p := hops op (List.mem_cons_self _ _)
    have hstep1 : ∀ d ∈ applyOp disk op, d.1 = p := by
      intro d hdm
      unfold applyOp at hdm
      split at hdm
      · obtain ⟨d0, hd0, hmap⟩ := List.mem_map.mp hdm
        by_cases hcond : d0.1 = opPath op
        · rw [if_pos hcond] at hmap
          rw [← hmap]
          exact hd d0 hd0
        · rw [if_neg hcond] at hmap
          rw [← hmap]
          exact hd d0 hd0
      · rcases List.mem_append.mp hdm with hmem | hmem
        · exact hd d hmem
        · simp only [List.mem_singleton] at hmem
          rw [hmem]
          exact hop
    have hstep2 : (applyOp disk op).length ≤ 1 := by
      unfold applyOp
      split
      · rw [List.length_map]
        exact hl
      · rename_i hany
        cases disk with
        | nil => simp
        | cons d ds =>
          exfalso
          apply hany
          have hdp : d.1 = opPath op := by
            rw [hd d (List.mem_cons_self _ _), hop]
          exact List.any_eq_true.mpr ⟨d, List.mem_cons_self _ _, by simp [hdp]⟩
    have := ih (applyOp disk op) (fun o ho => hops o (List.mem_cons_of_mem _ ho)) hstep1 hstep2
    simpa using this

/-! ## C5 — marker-less clusters produce no output -/

/-- C5: a cluster none of whose attribute names contains the marker name is
discarded by the filter before any per-cluster processing, and no file
operation of the invocation belongs to it. -/
theorem markerless_cluster_dropped (cfg : ParquetConfig) (w : WorldModel) (c : Cluster)
    (h : clusterHasMarker c = false) :
    c ∉ survivingClusters cfg w ∧
    ∀ op ∈ serializeWorldOps cfg w, opCluster op ≠ c := by
  constructor
  · intro hc
    have hm := mem_filterClusters hc
    rw [h] at hm
    exact Bool.false_ne_true hm
  · intro op hop heq
    obtain ⟨c', hc', hcl, _⟩ := processClusters_ops_spec cfg w (survivingClusters cfg w) op hop
    have hm := mem_filterClusters hc'
    rw [← hcl, heq, h] at hm
    exact Bool.false_ne_true hm

/-- A world with no entities and an empty registry, for witnesses. -/
def trivialWorld : WorldModel where
  entities := []
  sigs := []
  nameOf := fun _ => ""
  has := fun _ _ => false
  reflectVal := fun _ _ => none
  getInfo := fun _ => none
  regGet := fun _ => none

def c5Config : ParquetConfig where
  output_path := "out"
  file_name := none
  component_clusters := some [[("demo::Pos", 0)]]

/-- Witness for C5: the manual cluster `[demo::Pos]` has no marker, is not
among the surviving clusters, and owns no file operation. -/
theorem markerless_cluster_dropped_witness :
    clusterHasMarker [("demo::Pos", 0)] = false ∧
    (([("demo::Pos", 0)] : Cluster) ∉ survivingClusters c5Config trivialWorld ∧
     ∀ op ∈ serializeWorldOps c5Config trivialWorld, opCluster op ≠ [("demo::Pos", 0)]) :=
  ⟨by decide, markerless_cluster_dropped c5Config trivialWorld [("demo::Pos", 0)] (by decide)⟩

/-! ## C9 — manual clusters bypass detection but not the marker filter -/

/-- C9: when clusters are supplied manually through
`ParquetConfig.component_clusters`, detection is bypassed (the surviving
clusters are exactly the marker filter applied to the supplied list), yet a
supplied cluster without the marker substring is dropped and owns no file
operation, exactly like an auto-detected one. -/
theorem manual_clusters_marker_filter (cfg : ParquetConfig) (w : WorldModel)
    (cs : List Cluster) (c : Cluster)
    (h1 : cfg.component_clusters = some cs) (h2 : c ∈ cs)
    (h3 : clusterHasMarker c = false) :
    survivingClusters cfg w = filterClusters cs ∧
    c ∉ survivingClusters cfg w ∧
    ∀ op ∈ serializeWorldOps cfg w, opCluster op ≠ c := by
  have hs : survivingClusters cfg w = filterClusters cs := by
    unfold survivingClusters
    rw [h1, Option.getD_some]
  refine ⟨hs, ?_, ?_⟩
  · intro hc
    have hm := mem_filterClusters (hs ▸ hc)
    rw [h3] at hm
    exact Bool.false_ne_true hm
  · intro op hop heq
    obtain ⟨c', hc', hcl, _⟩ := processClusters_ops_spec cfg w (survivingClusters cfg w) op hop
    have hm := mem_filterClusters hc'
    rw [← hcl, heq, h3] at hm
    exact Bool.false_ne_true hm

/-- Witness for C9 on a concrete manual configuration. -/
theorem manual_clusters_marker_filter_witness :
    c5Config.component_clusters = some [[("demo::Pos", 0)]] ∧
    ([("demo::Pos", 0)] : Cluster) ∈ [[("demo::Pos", 0)]] ∧
    clusterHasMarker [("demo::Pos", 0)] = false ∧
    (survivingClusters c5Config trivialWorld = filterClusters [[("demo::Pos", 0)]] ∧
     ([("demo::Pos", 0)] : Cluster) ∉ survivingClusters c5Config trivialWorld ∧
     ∀ op ∈ serializeWorldOps c5Config trivialWorld, opCluster op ≠ [("demo::Pos", 0)]) :=
  ⟨rfl, List.mem_singleton.mpr rfl, by decide,
    manual_clusters_marker_filter c5Config trivialWorld [[("demo::Pos", 0)]]
      [("demo::Pos", 0)] rfl (List.mem_singleton.mpr rfl) (by decide)⟩

/-! ## C10 — a configured file name makes every cluster share one path -/

/-- C10: when `ParquetConfig.file_name` is set, every file operation of the
invocation targets the single path `<output_path>_<file_name>.parquet`, so
replaying the operations leaves at most one file on disk — later clusters
overwrite earlier ones. -/
theorem shared_filename_overwrite (cfg : ParquetConfig) (w : WorldModel) (n : String)
    (h : cfg.file_name = some n) :
    (∀ op ∈ serializeWorldOps cfg w,
        opPath op = cfg.output_path ++ "_" ++ n ++ ".parquet") ∧
    (replayDisk (serializeWorldOps cfg w)).length ≤ 1 := by
  have hpath : ∀ op ∈ serializeWorldOps cfg w,
      opPath op = cfg.output_path ++ "_" ++ n ++ ".parquet" := by
    intro op hop
    obtain ⟨c', _, _, hp⟩ := processClusters_ops_spec cfg w (survivingClusters cfg w) op hop
    rw [hp]
    unfold filePathFor chosenFileName
    rw [h, Option.getD_some]
  exact ⟨hpath,
    (replay_all_same_path _ (serializeWorldOps cfg w) [] hpath (by simp) (by simp)).2⟩

def c10Config : ParquetConfig where
  output_path := "out"
  file_name := some "snap"
  component_clusters := some [c6Cluster]

/-- Witness for C10: with the override `snap` configured, every operation
targets `out_snap.parquet` and at most one file remains. -/
theorem shared_filename_overwrite_witness :
    c10Config.file_name = some "snap" ∧
    ((∀ op ∈ serializeWorldOps c10Config c6World,
        opPath op = c10Config.output_path ++ "_" ++ "snap" ++ ".parquet") ∧
     (replayDisk (serializeWorldOps c10Config c6World)).length ≤ 1) :=
  ⟨rfl, shared_filename_overwrite c10Config c6World "snap" rfl⟩

/-! ## C1 — when schema building can fail -/

/-- Conditions under which one attribute's metadata resolves without a
panic: all three lookups succeed, a reflect-component tuple-struct carries
the marker in its path, and a reflect-component array's item type is
registered. -/
def SchemaSafe (w : WorldModel) (p : String × Nat) : Prop :=
  ∃ info tid reg,
    w.getInfo p.2 = some info ∧ info.typeId = some tid ∧ w.regGet tid = some reg ∧
    (reg.hasReflectComponent = true → reg.typeInfo = TypeInfoM.tupleStructInfo →
      strContains reg.typePath markerName = true) ∧
    (∀ itemId capacity, reg.hasReflectComponent = true →
      reg.typeInfo = TypeInfoM.arrayInfo itemId capacity → (w.regGet itemId).isSome = true)

lemma mapTypeToArrow_total (reg : TypeRegistration) (regGet : Nat → Option TypeRegistration)
    (h1 : reg.hasReflectComponent = true → reg.typeInfo = TypeInfoM.tupleStructInfo →
      strContains reg.typePath markerName = true)
    (h2 : ∀ itemId capacity, reg.hasReflectComponent = true →
      reg.typeInfo = TypeInfoM.arrayInfo itemId capacity → (regGet itemId).isSome = true) :
    ∃ dt, mapTypeToArrow reg regGet = Except.ok dt := by
  by_cases hr : reg.hasReflectComponent = true
  · rcases hti : reg.typeInfo with _ | fields | _ | _ | _ | ⟨itemId, capacity⟩ | _
    · exact ⟨ArrowType.utf8, by simp [mapTypeToArrow, hr, hti, h1 hr hti]⟩
    · rcases hph : get_phantom_type fields with _ | target
      · by_cases hout : fields.any (fun f => f.name = "output") = true
        · exact ⟨ArrowType.utf8, by simp [mapTypeToArrow, hr, hti, hph, hout]⟩
        · simp [mapTypeToArrow, hr, hti, hph, hout]
      · simp [mapTypeToArrow, hr, hti, hph]
    · simp [mapTypeToArrow, hr, hti]
    · simp [mapTypeToArrow, hr, hti]
    · simp [mapTypeToArrow, hr, hti]
    · obtain ⟨itemReg, hitem⟩ := Option.isSome_iff_exists.mp (h2 itemId capacity hr hti)
      simp [mapTypeToArrow, hr, hti, hitem]
    · simp [mapTypeToArrow, hr, hti]
  · exact ⟨ArrowType.utf8, by simp [mapTypeToArrow, hr]⟩

lemma createArrowSchemaAux_total (w : WorldModel) :
    ∀ c : Cluster, (∀ p ∈ c, SchemaSafe w p) →
      ∃ fields, createArrowSchemaAux w c = Except.ok fields := by
  intro c
  induction c with
  | nil =>
    intro _
    exact ⟨[], rfl⟩
  | cons hd tl ih =>
    intro h
    obtain ⟨name, cid⟩ := hd
    obtain ⟨info, tid, reg, hinfo, htid, hreg, htuple, harray⟩ :=
      h (name, cid) (List.mem_cons_self _ _)
    obtain ⟨fields, hf⟩ := ih (fun p hp => h p (List.mem_cons_of_mem _ hp))
    by_cases hmark : strContains reg.typePath markerName = true
    · exact ⟨fields, by simp [createArrowSchemaAux, hinfo, htid, hreg, hmark, hf]⟩
    · obtain ⟨dt, hdt⟩ := mapTypeToArrow_total reg w.regGet htuple harray
      exact ⟨(shortNameOf name, dt, false) :: fields,
        by simp [createArrowSchemaAux, hinfo, htid, hreg, hmark, hdt, hf]⟩

/-- World for the C1 counterexample: component `0` is fully registered
(component info, type id, registry entry with `ReflectComponent`), but its
type is a tuple struct whose path lacks the marker. -/
def c1World : WorldModel where
  entities := []
  sigs := []
  nameOf := fun _ => ""
  has := fun _ _ => false
  reflectVal := fun _ _ => none
  getInfo := fun _ => some ⟨some 0⟩
  regGet := fun _ => some ⟨"demo::Speed", "Speed", TypeInfoM.tupleStructInfo, true⟩

/-- C1 counterexample: the attribute's type metadata is fully present, yet
`create_arrow_schema` aborts — the registered non-marker tuple-struct hits
the source's `unimplemented!()` (serialization.rs, line 170) instead of
degrading to string.  So schema building can fail in cases other than
entirely absent metadata. -/
theorem schema_panic_counterexample :
    c1World.getInfo 0 = some ⟨some 0⟩ ∧
    c1World.regGet 0 = some ⟨"demo::Speed", "Speed", TypeInfoM.tupleStructInfo, true⟩ ∧
    create_arrow_schema [("demo::Speed", 0)] c1World
      = Except.error SchemaPanic.unimplementedTupleStruct :=
  ⟨rfl, rfl, rfl⟩

/-- C1 (amended): schema building succeeds — resolving every attribute to
some columnar type, degrading to string for unsupported kinds — whenever
each attribute's three metadata lookups succeed and the type is neither a
registered reflect-component non-marker tuple struct (`unimplemented!`)
nor a reflect-component array whose item type is unregistered. -/
theorem schema_total_when_mappable (w : WorldModel) (c : Cluster)
    (h : ∀ p ∈ c, SchemaSafe w p) :
    ∃ fields, create_arrow_schema c w = Except.ok fields :=
  createArrowSchemaAux_total w c h

/-- World in which every component resolves to a registered `f32` value
type. -/
def c1GoodWorld : WorldModel where
  entities := []
  sigs := []
  nameOf := fun _ => ""
  has := fun _ _ => false
  reflectVal := fun _ _ => none
  getInfo := fun _ => some ⟨some 0⟩
  regGet := fun _ => some ⟨"f32", "f32", TypeInfoM.valueInfo, true⟩

/-- Witness for C1 (amended): for a registered `f32` component the
hypotheses hold and schema creation returns `Ok`. -/
theorem schema_total_when_mappable_witness :
    (∀ p ∈ ([("demo::Speed", 0)] : Cluster), SchemaSafe c1GoodWorld p) ∧
    ∃ fields, create_arrow_schema [("demo::Speed", 0)] c1GoodWorld = Except.ok fields := by
  have h : ∀ p ∈ ([("demo::Speed", 0)] : Cluster), SchemaSafe c1GoodWorld p := by
    intro p _
    refine ⟨⟨some 0⟩, 0, ⟨"f32", "f32", TypeInfoM.valueInfo, true⟩, rfl, rfl, rfl, ?_, ?_⟩
    · intro _ hti
      exact TypeInfoM.noConfusion hti
    · intro itemId capacity _ hti
      exact TypeInfoM.noConfusion hti
  exact ⟨h, schema_total_when_mappable c1GoodWorld [("demo::Speed", 0)] h⟩

/-! ## C2 — structs with an `output` field -/

/-- Registration of a struct with a single field `output : f32` and no
`target_type` field. -/
def c2Reg : TypeRegistration where
  typePath := "demo::Out"
  shortPath := "Out"
  typeInfo := TypeInfoM.structInfo [⟨"output", "f32"⟩]
  hasReflectComponent := true

/-- C2 counterexample: for the registered struct `{ output : f32 }` the
`output` field's recursively-mapped type would be `float32` (`f32` is
mappable), yet the source maps the whole attribute to plain string
(serialization.rs, line 191): the columnar type is decided by a
`target_type: PhantomData<_>` sibling field, never by the `output` field's
own type. -/
theorem output_field_string_counterexample :
    get_phantom_type [⟨"output", "f32"⟩] = none ∧
    valueTypeToArrow "f32" = ArrowType.float32 ∧
    mapTypeToArrow c2Reg (fun _ => none) = Except.ok ArrowType.utf8 ∧
    ArrowType.utf8 ≠ ArrowType.float32 :=
  ⟨rfl, rfl, rfl, fun hcl => ArrowType.noConfusion hcl⟩

/-- C2 (amended): for a registered reflect-component struct with a field
named `output`, the columnar type is decided by the `target_type`
PhantomData mechanism: string when `get_phantom_type` resolves nothing,
and a one-field struct `{ output : target }` when it resolves `target`. -/
theorem output_struct_mapping (reg : TypeRegistration)
    (regGet : Nat → Option TypeRegistration) (fields : List StructFieldM)
    (hr : reg.hasReflectComponent = true)
    (hti : reg.typeInfo = TypeInfoM.structInfo fields)
    (hout : fields.any (fun f => f.name = "output") = true) :
    (get_phantom_type fields = none → mapTypeToArrow reg regGet = Except.ok ArrowType.utf8) ∧
    (∀ target, get_phantom_type fields = some target →
      mapTypeToArrow reg regGet =
        Except.ok (ArrowType.structType [("output", target, false)])) := by
  constructor
  · intro hph
    simp [mapTypeToArrow, hr, hti, hph, hout]
  · intro target hph
    simp [mapTypeToArrow, hr, hti, hph]

/-- Witness for C2 (amended) on the `{ output : f32 }` registration. -/
theorem output_struct_mapping_witness :
    c2Reg.hasReflectComponent = true ∧
    c2Reg.typeInfo = TypeInfoM.structInfo [⟨"output", "f32"⟩] ∧
    ([⟨"output", "f32"⟩] : List StructFieldM).any (fun f => f.name = "output") = true ∧
    ((get_phantom_type [⟨"output", "f32"⟩] = none →
        mapTypeToArrow c2Reg (fun _ => none) = Except.ok ArrowType.utf8) ∧
     (∀ target, get_phantom_type [⟨"output", "f32"⟩] = some target →
        mapTypeToArrow c2Reg (fun _ => none) =
          Except.ok (ArrowType.structType [("output", target, false)]))) :=
  ⟨rfl, rfl, by decide,
    output_struct_mapping c2Reg (fun _ => none) [⟨"output", "f32"⟩] rfl rfl (by decide)⟩

/-! ## C7 — derived file names -/

/-- C7 counterexample: the fold appends `"_"` after every short name
(lib.rs, line 112), so a one-attribute cluster derives `"Bar_"`, not the
underscore-join `"Bar"` the claim describes. -/
theorem derived_name_counterexample :
    deriveName [("foo::Bar", 0)] = "Bar_" ∧ ("Bar_" : String) ≠ "Bar" :=
  ⟨by decide, by decide⟩

/-- C7 (amended): the derived portion — each attribute's short name with a
trailing `"_"` appended, hard-truncated to the first 20 characters — never
exceeds 20 characters, and a configured override name replaces the derived
name entirely. -/
theorem derived_name_truncated (cfg : ParquetConfig) (c : Cluster) :
    (deriveName c).length ≤ 20 ∧
    (∀ n, cfg.file_name = some n → chosenFileName cfg c = n) ∧
    (cfg.file_name = none → chosenFileName cfg c = deriveName c) := by
  refine ⟨?_, ?_, ?_⟩
  · simp only [deriveName]
    split
    · show (String.mk _).length ≤ 20
      show (List.take 20 _).length ≤ 20
      exact List.length_take_le _ _
    · rename_i hle
      exact Nat.le_of_not_lt hle
  · intro n hn
    unfold chosenFileName
    rw [hn, Option.getD_some]
  · intro hn
    unfold chosenFileName
    rw [hn]
    rfl

/-- Witness for C7 (amended) on a concrete cluster and configuration. -/
theorem derived_name_truncated_witness :
    (deriveName [("foo::Bar", 0)]).length ≤ 20 ∧
    (∀ n, c10Config.file_name = some n → chosenFileName c10Config [("foo::Bar", 0)] = n) ∧
    (c10Config.file_name = none →
      chosenFileName c10Config [("foo::Bar", 0)] = deriveName [("foo::Bar", 0)]) :=
  derived_name_truncated c10Config [("foo::Bar", 0)]

end BevyParquet
